import Mathlib

/-!
# Verification of `src/pipeline.py` (semantic_segmentation)

Shallow embedding of the training pipeline in `src/pipeline.py`:
the `SemanticSegmentationTrainer` early-stopping bookkeeping, the
epoch loop of `train` (modelled as a trace of observable events:
remote log calls, checkpoint writes, the early-stopping break, and a
raised exception), `save_checkpoint`, the `wandb` calls of
`SemanticSegmentationPipeline.run` and the `__main__` block, and the
dataset `__getitem__` / transform pipeline.

Modelling conventions:
* Python floats carrying losses are modelled as rationals `ℚ`; the
  distinguished initial value `float('inf')` of `best_val_loss` is the
  extra constructor `PyFloat.inf`.
* Python is dynamically typed: the `patience` field holds whatever value
  the caller passed, here an `int` or a `str` (`PyVal`).  Evaluating
  `counter >= patience` against a string raises `TypeError`, modelled by
  `Except.error`.
* The numeric content of an epoch (forward passes, `loss.item()`
  averaging) is performed by the underlying tensor library and is not
  modelled; it enters as a function `losses : ℕ → ℚ × ℚ` giving each
  epoch's average training loss and average validation loss.  The model
  and optimizer objects are opaque type parameters `M` and `O`; the
  abstract value stands for the `state_dict()` stored in a checkpoint.
* `logging.getLogger` / `logger.info` calls have no observable effect on
  the claims and are not part of the event trace.
-/

/-- Python float values as they occur in the trainer: a finite rational,
or the distinguished `float('inf')` used to initialise `best_val_loss`
(line 75 of `src/pipeline.py`). -/
inductive PyFloat where
  | val : ℚ → PyFloat
  | inf : PyFloat
deriving DecidableEq

/-- Python comparison `a < b` on the modelled floats: every finite value
is strictly below `inf`, and `inf` is below nothing. -/
def PyFloat.lt : PyFloat → PyFloat → Bool
  | .val a, .val b => decide (a < b)
  | .val _, .inf => true
  | .inf, _ => false

/-- A dynamically-typed Python value as stored in the `patience` field:
an `int` in the intended use, a `str` after the positional-argument slip
in `SemanticSegmentationPipeline.run` (line 187). -/
inductive PyVal where
  | int : ℤ → PyVal
  | str : String → PyVal
deriving DecidableEq

/-- Python evaluation of `counter >= patience` where `counter` is an
`int`: against an `int` it returns a boolean, against a `str` it raises
`TypeError`. -/
def pyGeIntVal (c : ℤ) : PyVal → Except String Bool
  | .int p => .ok (decide (p ≤ c))
  | .str _ => .error "TypeError: unsupported comparison between int and str"

/-- State of a `SemanticSegmentationTrainer` (lines 57-75).  The loaders
and criterion influence the run only through the per-epoch average
losses, which the embedding supplies as an external sequence; the model
and optimizer are opaque values of types `M` and `O`. -/
structure SemanticSegmentationTrainer (M O : Type) where
  model : M
  optimizer : O
  num_epochs : ℕ
  patience : PyVal
  log_dir : String
  early_stopping_counter : ℤ
  best_val_loss : PyFloat
deriving DecidableEq

/-- Default value of the constructor parameter `num_epochs` (line 58). -/
def SemanticSegmentationTrainer.defaultNumEpochs : ℕ := 10

/-- Default value of the constructor parameter `patience` (line 58). -/
def SemanticSegmentationTrainer.defaultPatience : PyVal := .int 5

/-- Default value of the constructor parameter `log_dir` (line 58). -/
def SemanticSegmentationTrainer.defaultLogDir : String := "logs"

/-- The `__init__` of `SemanticSegmentationTrainer` (lines 58-75): stores
the arguments and initialises `early_stopping_counter = 0` and
`best_val_loss = float('inf')`. -/
def SemanticSegmentationTrainer.mkTrainer {M O : Type} (model : M) (optimizer : O)
    (num_epochs : ℕ) (patience : PyVal) (log_dir : String) :
    SemanticSegmentationTrainer M O :=
  { model := model, optimizer := optimizer, num_epochs := num_epochs,
    patience := patience, log_dir := log_dir,
    early_stopping_counter := 0, best_val_loss := .inf }

/-- The method `early_stopping` (lines 90-97): update `best_val_loss` and
the counter, then evaluate `self.early_stopping_counter >= self.patience`
(which raises when `patience` is a string — the state update has already
happened by then). -/
def SemanticSegmentationTrainer.early_stopping {M O : Type}
    (s : SemanticSegmentationTrainer M O) (val_loss : ℚ) :
    SemanticSegmentationTrainer M O × Except String Bool :=
  let s' :=
    if (PyFloat.val val_loss).lt s.best_val_loss then
      { s with best_val_loss := .val val_loss, early_stopping_counter := 0 }
    else
      { s with early_stopping_counter := s.early_stopping_counter + 1 }
  (s', pyGeIntVal s'.early_stopping_counter s'.patience)

/-- Model of `os.path.join` for the relative path components appearing in
this program. -/
def pathJoin (a b : String) : String :=
  if a = "" then b else if a.endsWith "/" then a ++ b else a ++ "/" ++ b

/-- The checkpoint record built by `save_checkpoint` (lines 78-84): it
has exactly the five keys `epoch`, `model_state_dict`,
`optimizer_state_dict`, `train_loss`, `val_loss`. -/
structure Checkpoint (M O : Type) where
  epoch : ℕ
  model_state_dict : M
  optimizer_state_dict : O
  train_loss : ℚ
  val_loss : ℚ
deriving DecidableEq

/-- The dictionary passed to `wandb.log` by `log_to_wandb` (lines
143-145): exactly the keys `epoch`, `train_loss`, `val_loss`. -/
structure WandbEntry where
  epoch : ℕ
  train_loss : ℚ
  val_loss : ℚ
deriving DecidableEq

/-- Observable events of a `train` run: a `wandb.log` call, a checkpoint
written to a path, the early-stopping `break` (with the epoch at which
it happens), or an uncaught exception propagating out of the loop. -/
inductive TrainEvent (M O : Type) where
  | wandbLog (entry : WandbEntry)
  | checkpointWrite (path : String) (record : Checkpoint M O)
  | earlyStopBreak (epoch : ℕ)
  | raiseError (msg : String)
deriving DecidableEq

/-- The method `save_checkpoint` (lines 77-88): builds the five-field
record and writes it to `os.path.join(self.log_dir,
f'checkpoint_epoch_{epoch}.pt')`. -/
def SemanticSegmentationTrainer.save_checkpoint {M O : Type}
    (s : SemanticSegmentationTrainer M O) (epoch : ℕ) (model_state : M)
    (optimizer_state : O) (train_loss val_loss : ℚ) : TrainEvent M O :=
  TrainEvent.checkpointWrite
    (pathJoin s.log_dir ("checkpoint_epoch_" ++ toString epoch ++ ".pt"))
    { epoch := epoch, model_state_dict := model_state,
      optimizer_state_dict := optimizer_state,
      train_loss := train_loss, val_loss := val_loss }

/-- The method `log_to_wandb` (lines 143-145). -/
def SemanticSegmentationTrainer.log_to_wandb {M O : Type}
    (_s : SemanticSegmentationTrainer M O) (epoch : ℕ)
    (train_loss val_loss : ℚ) : TrainEvent M O :=
  TrainEvent.wandbLog { epoch := epoch, train_loss := train_loss, val_loss := val_loss }

/-- The epoch loop of `train` (lines 99-141), from epoch `epoch` with
`n` epochs remaining.  Each iteration: compute the epoch's average
losses (supplied by `losses`), call `log_to_wandb`, call
`early_stopping`; on `True` log-and-`break`, on a raised `TypeError`
the exception propagates out of `train`, otherwise `save_checkpoint`
with `self.model.state_dict()` and `self.optimizer.state_dict()` and
continue. -/
def SemanticSegmentationTrainer.trainFrom {M O : Type} (losses : ℕ → ℚ × ℚ) :
    ℕ → ℕ → SemanticSegmentationTrainer M O →
    List (TrainEvent M O) × SemanticSegmentationTrainer M O
  | _, 0, s => ([], s)
  | epoch, n + 1, s =>
    let avg_loss := (losses epoch).1
    let avg_val_loss := (losses epoch).2
    let logEvent := s.log_to_wandb epoch avg_loss avg_val_loss
    match s.early_stopping avg_val_loss with
    | (s1, Except.error msg) => ([logEvent, TrainEvent.raiseError msg], s1)
    | (s1, Except.ok true) => ([logEvent, TrainEvent.earlyStopBreak epoch], s1)
    | (s1, Except.ok false) =>
      let ck := s1.save_checkpoint epoch s1.model s1.optimizer avg_loss avg_val_loss
      let rest := SemanticSegmentationTrainer.trainFrom losses (epoch + 1) n s1
      (logEvent :: ck :: rest.1, rest.2)

/-- The method `train` (lines 99-141): run the loop over
`range(self.num_epochs)` from a start state. -/
def SemanticSegmentationTrainer.train {M O : Type}
    (s : SemanticSegmentationTrainer M O) (losses : ℕ → ℚ × ℚ) :
    List (TrainEvent M O) × SemanticSegmentationTrainer M O :=
  SemanticSegmentationTrainer.trainFrom losses 0 s.num_epochs s

/-- The `wandb.log` dictionaries appearing in a trace, in order. -/
def wandbEntries {M O : Type} (tr : List (TrainEvent M O)) : List WandbEntry :=
  tr.filterMap fun e =>
    match e with
    | .wandbLog en => some en
    | _ => none

/-- The checkpoint writes appearing in a trace, in order, as
(path, record) pairs. -/
def ckptWrites {M O : Type} (tr : List (TrainEvent M O)) :
    List (String × Checkpoint M O) :=
  tr.filterMap fun e =>
    match e with
    | .checkpointWrite p r => some (p, r)
    | _ => none

/-- The epochs at which the trace records an early-stopping `break`. -/
def breakEpochs {M O : Type} (tr : List (TrainEvent M O)) : List ℕ :=
  tr.filterMap fun e =>
    match e with
    | .earlyStopBreak ep => some ep
    | _ => none

/-- The messages of exceptions recorded in the trace. -/
def raiseMsgs {M O : Type} (tr : List (TrainEvent M O)) : List String :=
  tr.filterMap fun e =>
    match e with
    | .raiseError m => some m
    | _ => none

/-- How the epoch loop ended: by exhausting `range(num_epochs)`, by the
early-stopping `break` at some epoch, or by an exception raised at some
epoch. -/
inductive LoopExit where
  | finished
  | stopped (epoch : ℕ)
  | raised (epoch : ℕ) (msg : String)
deriving DecidableEq

/-- The way the loop of `trainFrom losses epoch n s` exits. -/
def SemanticSegmentationTrainer.loopExit {M O : Type} (losses : ℕ → ℚ × ℚ) :
    ℕ → ℕ → SemanticSegmentationTrainer M O → LoopExit
  | _, 0, _ => .finished
  | epoch, n + 1, s =>
    match s.early_stopping (losses epoch).2 with
    | (_, Except.error msg) => .raised epoch msg
    | (_, Except.ok true) => .stopped epoch
    | (s1, Except.ok false) =>
      SemanticSegmentationTrainer.loopExit losses (epoch + 1) n s1

/-- Number of loop iterations entered by `trainFrom losses epoch n s`
(every entered iteration performs exactly one `wandb.log` call). -/
def SemanticSegmentationTrainer.entered {M O : Type} (losses : ℕ → ℚ × ℚ) :
    ℕ → ℕ → SemanticSegmentationTrainer M O → ℕ
  | _, 0, _ => 0
  | epoch, n + 1, s =>
    match s.early_stopping (losses epoch).2 with
    | (_, Except.error _) => 1
    | (_, Except.ok true) => 1
    | (s1, Except.ok false) =>
      SemanticSegmentationTrainer.entered losses (epoch + 1) n s1 + 1

/-- Number of iterations of `trainFrom losses epoch n s` completed
without breaking (every such iteration writes exactly one checkpoint). -/
def SemanticSegmentationTrainer.completedCount {M O : Type} (losses : ℕ → ℚ × ℚ) :
    ℕ → ℕ → SemanticSegmentationTrainer M O → ℕ
  | _, 0, _ => 0
  | epoch, n + 1, s =>
    match s.early_stopping (losses epoch).2 with
    | (_, Except.error _) => 0
    | (_, Except.ok true) => 0
    | (s1, Except.ok false) =>
      SemanticSegmentationTrainer.completedCount losses (epoch + 1) n s1 + 1

/-- The validation-loss component of the per-epoch loss sequence. -/
def valLosses (losses : ℕ → ℚ × ℚ) : ℕ → ℚ := fun i => (losses i).2

/-- The early-stopping bookkeeping state `(counter, best)` after `k`
calls of `early_stopping` on validation losses `vls 0, …, vls (k-1)`,
starting from the freshly-initialised `(0, inf)`. -/
def esAfter (vls : ℕ → ℚ) : ℕ → ℤ × PyFloat
  | 0 => (0, PyFloat.inf)
  | k + 1 =>
    let p := esAfter vls k
    if (PyFloat.val (vls k)).lt p.2 then (0, PyFloat.val (vls k)) else (p.1 + 1, p.2)

/-- Epoch `k` improves on the best validation loss seen so far. -/
def improves (vls : ℕ → ℚ) (k : ℕ) : Bool :=
  (PyFloat.val (vls k)).lt (esAfter vls k).2

/-- Length of the streak of consecutive non-improving epochs ending just
before position `k`. -/
def streak (vls : ℕ → ℚ) : ℕ → ℕ
  | 0 => 0
  | k + 1 => if improves vls k then 0 else streak vls k + 1

/-- A sequence of `early_stopping` calls threaded through the trainer
state (the signal of each call is discarded). -/
def SemanticSegmentationTrainer.esRun {M O : Type}
    (s : SemanticSegmentationTrainer M O) (l : List ℚ) :
    SemanticSegmentationTrainer M O :=
  l.foldl (fun t v => (t.early_stopping v).1) s

/-- Minimum of `float('inf')` and the values of a list, the reference
value for `best_val_loss` after observing that list of losses. -/
def specMin : List ℚ → PyFloat
  | [] => PyFloat.inf
  | a :: as => PyFloat.val (as.foldl min a)

/-- One step of the `best_val_loss` update performed by `early_stopping`. -/
def bestStep (b : PyFloat) (v : ℚ) : PyFloat :=
  if (PyFloat.val v).lt b then PyFloat.val v else b

/-- The early-stopping `break` epochs determined by a loop exit. -/
def LoopExit.breakList : LoopExit → List ℕ
  | .stopped j => [j]
  | _ => []

/-- The raised exception messages determined by a loop exit. -/
def LoopExit.raiseList : LoopExit → List String
  | .raised _ m => [m]
  | _ => []

/-! ## The pipeline (lines 148-196) -/

/-- The `__init__` of `SemanticSegmentationPipeline` (lines 149-156)
merely stores its parameters. -/
structure SemanticSegmentationPipeline where
  root : String
  year : String
  train_batch_size : ℕ
  val_batch_size : ℕ
  num_epochs : ℕ
  seed : ℕ
  log_dir : String
deriving DecidableEq

/-- The pipeline built with all constructor defaults (line 149), as done
by `SemanticSegmentationPipeline()` in the `__main__` block (line 194). -/
def defaultPipeline : SemanticSegmentationPipeline :=
  { root := "./data", year := "2012", train_batch_size := 64,
    val_batch_size := 64, num_epochs := 10, seed := 42, log_dir := "logs" }

/-- The configuration dictionary passed to `wandb.config.update` in
`run` (lines 160-168): exactly the keys `root`, `year`,
`train_batch_size`, `val_batch_size`, `num_epochs`, `seed`, `log_dir`. -/
structure WandbConfig where
  root : String
  year : String
  train_batch_size : ℕ
  val_batch_size : ℕ
  num_epochs : ℕ
  seed : ℕ
  log_dir : String
deriving DecidableEq

/-- A call to the experiment-tracking service: `wandb.init` (with its
optional `project` argument) or `wandb.config.update`. -/
inductive WandbCall where
  | start (project : Option String)
  | configUpdate (cfg : WandbConfig)
deriving DecidableEq

/-- The experiment-tracking calls made by `SemanticSegmentationPipeline.run`
(lines 158-168), in order: `wandb.init()` — with no `project` argument —
followed by `wandb.config.update({...})` with the seven hyperparameters. -/
def SemanticSegmentationPipeline.runWandbCalls (p : SemanticSegmentationPipeline) :
    List WandbCall :=
  [WandbCall.start none,
   WandbCall.configUpdate
     { root := p.root, year := p.year, train_batch_size := p.train_batch_size,
       val_batch_size := p.val_batch_size, num_epochs := p.num_epochs,
       seed := p.seed, log_dir := p.log_dir }]

/-- The experiment-tracking calls of the `__main__` block together with
those of `pipeline.run()` (lines 192-196, `wandb.finish` omitted):
`wandb.init(project='semantic-segmentation')`, then the calls of `run`
on the default pipeline. -/
def mainWandbCalls : List WandbCall :=
  WandbCall.start (some "semantic-segmentation") :: defaultPipeline.runWandbCalls

/-- The trainer constructed by `SemanticSegmentationPipeline.run` (lines
187-188): the call passes exactly seven positional arguments
`(model, train_dataset, val_dataset, criterion, optimizer,
self.num_epochs, self.log_dir)`, so `self.log_dir` — a string — lands in
the constructor's `patience` parameter and the `log_dir` parameter keeps
its default `'logs'`. -/
def SemanticSegmentationPipeline.runTrainer {M O : Type}
    (p : SemanticSegmentationPipeline) (model : M) (optimizer : O) :
    SemanticSegmentationTrainer M O :=
  SemanticSegmentationTrainer.mkTrainer model optimizer p.num_epochs
    (PyVal.str p.log_dir) SemanticSegmentationTrainer.defaultLogDir

/-! ## The dataset and its transform pipeline (lines 13-30, 169-179)

The torchvision parts (`transforms.Compose`, `transforms.Resize`,
`transforms.ToTensor`, `VOCSegmentation`) are third-party library code;
they are modelled here at the level of their documented call
conventions: `Resize` accepts a size sequence of 1 or 2 values and
raises `ValueError` otherwise, `Compose.__call__` accepts exactly one
positional argument (the image), and `VOCSegmentation.__getitem__`
applies the stored `transform` to the image only.  Images are modelled
by their shape, a list of dimensions, which is all the claims need. -/

/-- An image, modelled by its shape. -/
abbrev Image := List ℕ

/-- The torchvision transforms used by the pipeline. -/
inductive TVTransform where
  | resize (size : List ℕ)
  | toTensor
deriving DecidableEq

/-- A `Resize` size argument is functional when the sequence has 1 or 2
values; `Resize((224, 224, 3))` is rejected at call time. -/
def validResizeSize (size : List ℕ) : Bool :=
  decide (size.length = 1 ∨ size.length = 2)

/-- One-argument application of a primitive transform to an image:
`Resize` with an invalid size sequence raises `ValueError`. -/
def applyTVTransform : TVTransform → Image → Except String Image
  | .resize size, _ =>
    if validResizeSize size then Except.ok size
    else Except.error "ValueError: size must be a sequence of 1 or 2 values"
  | .toTensor, img => Except.ok img

/-- `transforms.Compose`: a list of transforms applied in order. -/
structure Compose where
  transforms : List TVTransform
deriving DecidableEq

/-- `Compose.__call__(self, img)`: the single-argument call, folding the
constituent transforms over the image. -/
def Compose.call (c : Compose) (img : Image) : Except String Image :=
  c.transforms.foldlM (fun i t => applyTVTransform t i) img

/-- Calling a `Compose` object on an argument tuple: its `__call__`
declares exactly one positional argument besides `self`, so any other
arity raises `TypeError`. -/
def Compose.callWith (c : Compose) (args : List Image) :
    Except String (List Image) :=
  match args with
  | [img] => (c.call img).map fun r => [r]
  | _ => Except.error "TypeError: Compose takes a single positional argument"

/-- The composed transform built in `SemanticSegmentationPipeline.run`
(lines 169-172): `Compose([Resize((224, 224, 3)), ToTensor()])`. -/
def pipelineTransform : Compose :=
  { transforms := [TVTransform.resize [224, 224, 3], TVTransform.toTensor] }

/-- The underlying `VOCSegmentation` dataset: raw (image, mask) pairs by
index, plus the optional stored `transform`. -/
structure VOCSegmentation where
  raw : ℕ → Image × Image
  transform : Option Compose

/-- `VOCSegmentation.__getitem__` (library semantics): the stored
`transform` is applied to the image — with a single argument — and the
mask is returned untouched. -/
def VOCSegmentation.getItem (d : VOCSegmentation) (idx : ℕ) :
    Except String (Image × Image) :=
  match d.transform with
  | none => Except.ok (d.raw idx)
  | some t => (t.call (d.raw idx).1).map fun img => (img, (d.raw idx).2)

/-- The wrapper class `SemanticSegmentationDataset` (lines 13-30); the
loader and seeding have no bearing on `__getitem__`. -/
structure SemanticSegmentationDataset where
  dataset : VOCSegmentation

/-- `SemanticSegmentationDataset.__getitem__` (lines 24-30): fetch
`self.dataset[idx]`, then — if a transform is stored — call it a second
time, with the two arguments `(img, mask)`, and return the pair. -/
def SemanticSegmentationDataset.getitem (d : SemanticSegmentationDataset)
    (idx : ℕ) : Except String (Image × Image) := do
  let im ← d.dataset.getItem idx
  match d.dataset.transform with
  | none => pure im
  | some t => do
    let rs ← t.callWith [im.1, im.2]
    match rs with
    | [a, b] => pure (a, b)
    | _ => Except.error "ValueError: cannot unpack transform result"

/-! ## Basic lemmas about `early_stopping` -/

/-- Unfolding of the state component of `early_stopping`. -/
lemma early_stopping_fst {M O : Type} (s : SemanticSegmentationTrainer M O) (v : ℚ) :
    (s.early_stopping v).1 =
      if (PyFloat.val v).lt s.best_val_loss then
        { s with best_val_loss := .val v, early_stopping_counter := 0 }
      else
        { s with early_stopping_counter := s.early_stopping_counter + 1 } := rfl

lemma early_stopping_best {M O : Type} (s : SemanticSegmentationTrainer M O) (v : ℚ) :
    (s.early_stopping v).1.best_val_loss = bestStep s.best_val_loss v := by
  rw [early_stopping_fst, bestStep]
  split <;> rfl

lemma early_stopping_patience {M O : Type} (s : SemanticSegmentationTrainer M O) (v : ℚ) :
    (s.early_stopping v).1.patience = s.patience := by
  rw [early_stopping_fst]; split <;> rfl

lemma early_stopping_model {M O : Type} (s : SemanticSegmentationTrainer M O) (v : ℚ) :
    (s.early_stopping v).1.model = s.model := by
  rw [early_stopping_fst]; split <;> rfl

lemma early_stopping_optimizer {M O : Type} (s : SemanticSegmentationTrainer M O) (v : ℚ) :
    (s.early_stopping v).1.optimizer = s.optimizer := by
  rw [early_stopping_fst]; split <;> rfl

lemma early_stopping_log_dir {M O : Type} (s : SemanticSegmentationTrainer M O) (v : ℚ) :
    (s.early_stopping v).1.log_dir = s.log_dir := by
  rw [early_stopping_fst]; split <;> rfl

/-- The signal returned by `early_stopping` is the comparison of the
updated counter against the (unchanged) patience field. -/
lemma early_stopping_snd {M O : Type} (s : SemanticSegmentationTrainer M O) (v : ℚ) :
    (s.early_stopping v).2 =
      pyGeIntVal (s.early_stopping v).1.early_stopping_counter s.patience := by
  have h : (s.early_stopping v).2 =
      pyGeIntVal (s.early_stopping v).1.early_stopping_counter
        (s.early_stopping v).1.patience := rfl
  rw [h, early_stopping_patience]

/-! ## Observer equations -/

lemma wandbEntries_nil {M O : Type} : wandbEntries ([] : List (TrainEvent M O)) = [] := rfl

lemma wandbEntries_cons {M O : Type} (ev : TrainEvent M O) (tr : List (TrainEvent M O)) :
    wandbEntries (ev :: tr) =
      (match ev with
       | .wandbLog en => [en]
       | _ => []) ++ wandbEntries tr := by
  cases ev <;> rfl

lemma ckptWrites_nil {M O : Type} : ckptWrites ([] : List (TrainEvent M O)) = [] := rfl

lemma ckptWrites_cons {M O : Type} (ev : TrainEvent M O) (tr : List (TrainEvent M O)) :
    ckptWrites (ev :: tr) =
      (match ev with
       | .checkpointWrite p r => [(p, r)]
       | _ => []) ++ ckptWrites tr := by
  cases ev <;> rfl

lemma breakEpochs_nil {M O : Type} : breakEpochs ([] : List (TrainEvent M O)) = [] := rfl

lemma breakEpochs_cons {M O : Type} (ev : TrainEvent M O) (tr : List (TrainEvent M O)) :
    breakEpochs (ev :: tr) =
      (match ev with
       | .earlyStopBreak ep => [ep]
       | _ => []) ++ breakEpochs tr := by
  cases ev <;> rfl

/-! ## Trace lemmas for the epoch loop -/

/-- The `wandb.log` entries of a loop trace: one per entered iteration,
carrying the epoch index and that epoch's average losses. -/
lemma wandb_trainFrom {M O : Type} (losses : ℕ → ℚ × ℚ) :
    ∀ (n e : ℕ) (s : SemanticSegmentationTrainer M O),
      wandbEntries (SemanticSegmentationTrainer.trainFrom losses e n s).1 =
        (List.range' e (SemanticSegmentationTrainer.entered losses e n s)).map
          (fun i =>
            { epoch := i, train_loss := (losses i).1, val_loss := (losses i).2 })
  | 0, e, s => by
    simp [SemanticSegmentationTrainer.trainFrom,
      SemanticSegmentationTrainer.entered, wandbEntries_nil]
  | n + 1, e, s => by
    have ih := @wandb_trainFrom M O losses n (e + 1)
    cases hes : s.early_stopping (losses e).2 with
    | mk s1 r =>
      cases r with
      | error msg =>
        simp [SemanticSegmentationTrainer.trainFrom,
          SemanticSegmentationTrainer.entered, hes, wandbEntries_cons, wandbEntries_nil,
          SemanticSegmentationTrainer.log_to_wandb, List.range'_one]
      | ok b =>
        cases b with
        | true =>
          simp [SemanticSegmentationTrainer.trainFrom,
            SemanticSegmentationTrainer.entered, hes, wandbEntries_cons, wandbEntries_nil,
            SemanticSegmentationTrainer.log_to_wandb, List.range'_one]
        | false =>
          simp [SemanticSegmentationTrainer.trainFrom,
            SemanticSegmentationTrainer.entered, hes, wandbEntries_cons, wandbEntries_nil,
            SemanticSegmentationTrainer.log_to_wandb,
            SemanticSegmentationTrainer.save_checkpoint, List.range'_succ,
            ih s1]

/-- The checkpoint writes of a loop trace: one per completed iteration,
at the path `checkpoint_epoch_<epoch>.pt` inside the log directory, with
the five-field record for that epoch. -/
lemma ckpt_trainFrom {M O : Type} (losses : ℕ → ℚ × ℚ) :
    ∀ (n e : ℕ) (s : SemanticSegmentationTrainer M O),
      ckptWrites (SemanticSegmentationTrainer.trainFrom losses e n s).1 =
        (List.range' e (SemanticSegmentationTrainer.completedCount losses e n s)).map
          (fun i =>
            (pathJoin s.log_dir ("checkpoint_epoch_" ++ toString i ++ ".pt"),
             { epoch := i, model_state_dict := s.model,
               optimizer_state_dict := s.optimizer,
               train_loss := (losses i).1, val_loss := (losses i).2 }))
  | 0, e, s => by
    simp [SemanticSegmentationTrainer.trainFrom,
      SemanticSegmentationTrainer.completedCount, ckptWrites_nil]
  | n + 1, e, s => by
    have ih := @ckpt_trainFrom M O losses n (e + 1)
    cases hes : s.early_stopping (losses e).2 with
    | mk s1 r =>
      have h1 : s1 = (s.early_stopping (losses e).2).1 := by rw [hes]
      have hm : s1.model = s.model := by rw [h1, early_stopping_model]
      have ho : s1.optimizer = s.optimizer := by
        rw [h1, early_stopping_optimizer]
      have hl : s1.log_dir = s.log_dir := by rw [h1, early_stopping_log_dir]
      cases r with
      | error msg =>
        simp [SemanticSegmentationTrainer.trainFrom,
          SemanticSegmentationTrainer.completedCount, hes, ckptWrites_cons, ckptWrites_nil,
          SemanticSegmentationTrainer.log_to_wandb]
      | ok b =>
        cases b with
        | true =>
          simp [SemanticSegmentationTrainer.trainFrom,
            SemanticSegmentationTrainer.completedCount, hes, ckptWrites_cons, ckptWrites_nil,
            SemanticSegmentationTrainer.log_to_wandb]
        | false =>
          simp [SemanticSegmentationTrainer.trainFrom,
            SemanticSegmentationTrainer.completedCount, hes, ckptWrites_cons, ckptWrites_nil,
            SemanticSegmentationTrainer.log_to_wandb,
            SemanticSegmentationTrainer.save_checkpoint, List.range'_succ,
            ih s1, hm, ho, hl]

/-- The `break` epochs of a loop trace are determined by its exit. -/
lemma breaks_trainFrom {M O : Type} (losses : ℕ → ℚ × ℚ) :
    ∀ (n e : ℕ) (s : SemanticSegmentationTrainer M O),
      breakEpochs (SemanticSegmentationTrainer.trainFrom losses e n s).1 =
        (SemanticSegmentationTrainer.loopExit losses e n s).breakList
  | 0, e, s => by
    simp [SemanticSegmentationTrainer.trainFrom,
      SemanticSegmentationTrainer.loopExit, breakEpochs_nil, LoopExit.breakList]
  | n + 1, e, s => by
    have ih := @breaks_trainFrom M O losses n (e + 1)
    cases hes : s.early_stopping (losses e).2 with
    | mk s1 r =>
      cases r with
      | error msg =>
        simp [SemanticSegmentationTrainer.trainFrom,
          SemanticSegmentationTrainer.loopExit, hes, breakEpochs_cons, breakEpochs_nil,
          LoopExit.breakList, SemanticSegmentationTrainer.log_to_wandb]
      | ok b =>
        cases b with
        | true =>
          simp [SemanticSegmentationTrainer.trainFrom,
            SemanticSegmentationTrainer.loopExit, hes, breakEpochs_cons, breakEpochs_nil,
            LoopExit.breakList, SemanticSegmentationTrainer.log_to_wandb]
        | false =>
          simp [SemanticSegmentationTrainer.trainFrom,
            SemanticSegmentationTrainer.loopExit, hes, breakEpochs_cons, breakEpochs_nil,
            SemanticSegmentationTrainer.log_to_wandb,
            SemanticSegmentationTrainer.save_checkpoint, ih s1]

/-- How the number of entered and completed iterations relates to the
loop exit. -/
lemma exit_counts {M O : Type} (losses : ℕ → ℚ × ℚ) :
    ∀ (n e : ℕ) (s : SemanticSegmentationTrainer M O),
      (SemanticSegmentationTrainer.loopExit losses e n s = LoopExit.finished →
        SemanticSegmentationTrainer.entered losses e n s = n ∧
        SemanticSegmentationTrainer.completedCount losses e n s = n) ∧
      (∀ j, SemanticSegmentationTrainer.loopExit losses e n s = LoopExit.stopped j →
        j = e + SemanticSegmentationTrainer.completedCount losses e n s ∧
        SemanticSegmentationTrainer.entered losses e n s =
          SemanticSegmentationTrainer.completedCount losses e n s + 1) ∧
      (∀ j m, SemanticSegmentationTrainer.loopExit losses e n s = LoopExit.raised j m →
        j = e + SemanticSegmentationTrainer.completedCount losses e n s ∧
        SemanticSegmentationTrainer.entered losses e n s =
          SemanticSegmentationTrainer.completedCount losses e n s + 1)
  | 0, e, s => by
    refine ⟨fun _ => ⟨rfl, rfl⟩, fun j h => ?_, fun j m h => ?_⟩ <;>
      simp [SemanticSegmentationTrainer.loopExit] at h
  | n + 1, e, s => by
    have ih := @exit_counts M O losses n (e + 1)
    cases hes : s.early_stopping (losses e).2 with
    | mk s1 r =>
      cases r with
      | error msg =>
        refine ⟨fun h => ?_, fun j h => ?_, fun j m h => ?_⟩ <;>
          simp [SemanticSegmentationTrainer.loopExit,
            SemanticSegmentationTrainer.entered,
            SemanticSegmentationTrainer.completedCount, hes] at h ⊢
        obtain ⟨rfl, rfl⟩ := h
        omega
      | ok b =>
        cases b with
        | true =>
          refine ⟨fun h => ?_, fun j h => ?_, fun j m h => ?_⟩ <;>
            simp [SemanticSegmentationTrainer.loopExit,
              SemanticSegmentationTrainer.entered,
              SemanticSegmentationTrainer.completedCount, hes] at h ⊢
          omega
        | false =>
          obtain ⟨ihf, ihs, ihr⟩ := ih s1
          refine ⟨fun h => ?_, fun j h => ?_, fun j m h => ?_⟩ <;>
            simp only [SemanticSegmentationTrainer.loopExit,
              SemanticSegmentationTrainer.entered,
              SemanticSegmentationTrainer.completedCount, hes] at h ⊢
          · obtain ⟨h1, h2⟩ := ihf h
            omega
          · obtain ⟨h1, h2⟩ := ihs j h
            omega
          · obtain ⟨h1, h2⟩ := ihr j m h
            omega

/-! ## The counter as a streak of non-improving epochs -/

/-- The counter tracked by `esAfter` is the length of the streak of
consecutive non-improving epochs ending at position `k`. -/
lemma esAfter_fst_streak (vls : ℕ → ℚ) :
    ∀ k, (esAfter vls k).1 = (streak vls k : ℤ)
  | 0 => rfl
  | k + 1 => by
    have ih := esAfter_fst_streak vls k
    cases h : improves vls k with
    | true =>
      have h' : (PyFloat.val (vls k)).lt (esAfter vls k).2 = true := h
      simp [esAfter, streak, improves, h, h']
    | false =>
      have h' : (PyFloat.val (vls k)).lt (esAfter vls k).2 = false := h
      simp [esAfter, streak, improves, h, h', ih]

/-- One `early_stopping` call, transported along the pure bookkeeping
state `esAfter`: if the trainer's counter and best loss agree with
`esAfter` at position `e`, then after the call they agree with `esAfter`
at `e + 1`, and the returned signal compares the updated counter against
the patience field. -/
lemma early_stopping_esAfter {M O : Type} (vls : ℕ → ℚ) (e : ℕ)
    (s : SemanticSegmentationTrainer M O)
    (hc : s.early_stopping_counter = (esAfter vls e).1)
    (hb : s.best_val_loss = (esAfter vls e).2) :
    (s.early_stopping (vls e)).1.early_stopping_counter = (esAfter vls (e + 1)).1 ∧
    (s.early_stopping (vls e)).1.best_val_loss = (esAfter vls (e + 1)).2 ∧
    (s.early_stopping (vls e)).2 =
      pyGeIntVal (esAfter vls (e + 1)).1 s.patience := by
  have hsnd := early_stopping_snd s (vls e)
  rw [early_stopping_fst] at hsnd ⊢
  rw [hb] at hsnd ⊢
  cases h : (PyFloat.val (vls e)).lt (esAfter vls e).2 with
  | true =>
    refine ⟨by simp [esAfter, h], by simp [esAfter, h], ?_⟩
    rw [hsnd]
    simp [esAfter, h]
  | false =>
    refine ⟨by simp [esAfter, h, hc], by simp [esAfter, h], ?_⟩
    rw [hsnd]
    simp [esAfter, h, hc]

/-- Characterisation of the loop exit for an integer patience `p`: the
loop never raises; it breaks exactly at the first epoch whose
`early_stopping` call brings the counter up to `p`; and it finishes all
its epochs exactly when no epoch in range does so. -/
lemma loopExit_int {M O : Type} (losses : ℕ → ℚ × ℚ) (p : ℤ) :
    ∀ (n e : ℕ) (s : SemanticSegmentationTrainer M O),
      s.patience = PyVal.int p →
      s.early_stopping_counter = (esAfter (valLosses losses) e).1 →
      s.best_val_loss = (esAfter (valLosses losses) e).2 →
      (∀ j m, SemanticSegmentationTrainer.loopExit losses e n s ≠ LoopExit.raised j m) ∧
      (∀ j, SemanticSegmentationTrainer.loopExit losses e n s = LoopExit.stopped j ↔
        (e ≤ j ∧ j < e + n ∧ p ≤ (esAfter (valLosses losses) (j + 1)).1 ∧
          ∀ i, e ≤ i → i < j → ¬ p ≤ (esAfter (valLosses losses) (i + 1)).1)) ∧
      (SemanticSegmentationTrainer.loopExit losses e n s = LoopExit.finished ↔
        ∀ i, e ≤ i → i < e + n → ¬ p ≤ (esAfter (valLosses losses) (i + 1)).1)
  | 0, e, s => by
    intro _ _ _
    refine ⟨fun j m h => ?_, fun j => ?_, ?_⟩
    · simp [SemanticSegmentationTrainer.loopExit] at h
    · constructor
      · intro h
        simp [SemanticSegmentationTrainer.loopExit] at h
      · rintro ⟨h1, h2, -, -⟩
        omega
    · constructor
      · intro _ i h1 h2
        omega
      · intro _
        rfl
  | n + 1, e, s => by
    intro hpat hc hb
    have hstep := early_stopping_esAfter (valLosses losses) e s hc hb
    have hv : (losses e).2 = valLosses losses e := rfl
    cases hes : s.early_stopping (valLosses losses e) with
    | mk s1 r =>
      have h1 : s1 = (s.early_stopping (valLosses losses e)).1 := by rw [hes]
      have hp1 : s1.patience = PyVal.int p := by
        rw [h1, early_stopping_patience, hpat]
      have hc1 : s1.early_stopping_counter = (esAfter (valLosses losses) (e + 1)).1 := by
        rw [h1]; exact hstep.1
      have hb1 : s1.best_val_loss = (esAfter (valLosses losses) (e + 1)).2 := by
        rw [h1]; exact hstep.2.1
      have hr : r = pyGeIntVal (esAfter (valLosses losses) (e + 1)).1 s.patience := by
        have h2 := hstep.2.2
        rw [hes] at h2
        exact h2
      rw [hpat] at hr
      by_cases hP : p ≤ (esAfter (valLosses losses) (e + 1)).1
      · have hr2 : r = Except.ok true := by
          rw [hr]; simp [pyGeIntVal, hP]
        subst hr2
        refine ⟨fun j m h => ?_, fun j => ?_, ?_⟩
        · simp [SemanticSegmentationTrainer.loopExit, hv, hes] at h
        · simp only [SemanticSegmentationTrainer.loopExit, hv, hes]
          constructor
          · intro h
            rw [LoopExit.stopped.injEq] at h
            refine ⟨by omega, by omega, ?_, fun i hi1 hi2 => by omega⟩
            rw [← h]; exact hP
          · rintro ⟨h1, h2, h3, h4⟩
            have hj : j = e := by
              by_contra hne
              exact (h4 e (le_refl e) (by omega)) hP
            rw [hj]
        · simp only [SemanticSegmentationTrainer.loopExit, hv, hes]
          constructor
          · intro h
            exact absurd h (by simp)
          · intro h
            exact absurd hP (h e (le_refl e) (by omega))
      · have hr2 : r = Except.ok false := by
          rw [hr]; simp [pyGeIntVal, hP]
        subst hr2
        obtain ⟨ihr, ihs, ihf⟩ :=
          loopExit_int losses p n (e + 1) s1 hp1 hc1 hb1
        refine ⟨fun j m h => ?_, fun j => ?_, ?_⟩
        · simp only [SemanticSegmentationTrainer.loopExit, hv, hes] at h
          exact ihr j m h
        · simp only [SemanticSegmentationTrainer.loopExit, hv, hes]
          rw [ihs j]
          constructor
          · rintro ⟨h1, h2, h3, h4⟩
            refine ⟨by omega, by omega, h3, fun i hi1 hi2 => ?_⟩
            rcases Nat.eq_or_lt_of_le hi1 with hie | hie
            · rw [← hie]; exact hP
            · exact h4 i hie hi2
          · rintro ⟨h1, h2, h3, h4⟩
            have hje : j ≠ e := fun hje => hP (hje ▸ h3)
            exact ⟨by omega, by omega, h3, fun i hi1 hi2 => h4 i (by omega) hi2⟩
        · simp only [SemanticSegmentationTrainer.loopExit, hv, hes]
          rw [ihf]
          constructor
          · intro h i hi1 hi2
            rcases Nat.eq_or_lt_of_le hi1 with hie | hie
            · rw [← hie]; exact hP
            · exact h i hie (by omega)
          · intro h i hi1 hi2
            exact h i (by omega) (by omega)


/-! ## The evolution of `best_val_loss` -/

lemma esRun_best {M O : Type} :
    ∀ (l : List ℚ) (s : SemanticSegmentationTrainer M O),
      (s.esRun l).best_val_loss = l.foldl bestStep s.best_val_loss
  | [], _ => rfl
  | v :: l, s => by
    have h := esRun_best l (s.early_stopping v).1
    simpa [SemanticSegmentationTrainer.esRun, early_stopping_best] using h

lemma foldl_bestStep_val : ∀ (as : List ℚ) (m : ℚ),
    as.foldl bestStep (PyFloat.val m) = PyFloat.val (as.foldl min m)
  | [], _ => rfl
  | v :: as, m => by
    have hstep : bestStep (PyFloat.val m) v = PyFloat.val (min m v) := by
      rcases le_or_lt m v with h | h
      · have : (PyFloat.val v).lt (PyFloat.val m) = false := by
          simp [PyFloat.lt, not_lt.2 h]
        simp [bestStep, this, min_eq_left h]
      · have : (PyFloat.val v).lt (PyFloat.val m) = true := by
          simp [PyFloat.lt, h]
        simp [bestStep, this, min_eq_right h.le]
    rw [List.foldl_cons, hstep, foldl_bestStep_val as (min m v), List.foldl_cons]

lemma foldl_bestStep_inf (l : List ℚ) :
    l.foldl bestStep PyFloat.inf = specMin l := by
  cases l with
  | nil => rfl
  | cons a as =>
    have h : bestStep PyFloat.inf a = PyFloat.val a := rfl
    rw [List.foldl_cons, h, foldl_bestStep_val, specMin]

/-! ## Claim C1 -/

/-- C1: in each call of `early_stopping` with validation loss `v`, if `v`
is strictly below the current `best_val_loss` then the counter is reset
to zero and `best_val_loss` becomes `v`; otherwise the counter is
incremented by exactly one (and `best_val_loss` is unchanged). -/
theorem claim1_early_stopping_update {M O : Type}
    (s : SemanticSegmentationTrainer M O) (v : ℚ) :
    ((PyFloat.val v).lt s.best_val_loss = true →
      (s.early_stopping v).1.early_stopping_counter = 0 ∧
      (s.early_stopping v).1.best_val_loss = PyFloat.val v) ∧
    ((PyFloat.val v).lt s.best_val_loss = false →
      (s.early_stopping v).1.early_stopping_counter = s.early_stopping_counter + 1 ∧
      (s.early_stopping v).1.best_val_loss = s.best_val_loss) := by
  constructor <;> intro h <;> rw [early_stopping_fst] <;> simp [h]

/-- Witness for C1, exercising both branches on concrete states. -/
theorem claim1_early_stopping_update_witness :
    (((SemanticSegmentationTrainer.mkTrainer (0 : ℕ) (0 : ℕ) 10 (.int 5)
        "logs").early_stopping 3).1.early_stopping_counter = 0 ∧
      ((SemanticSegmentationTrainer.mkTrainer (0 : ℕ) (0 : ℕ) 10 (.int 5)
        "logs").early_stopping 3).1.best_val_loss = PyFloat.val 3) :=
  (claim1_early_stopping_update
    (SemanticSegmentationTrainer.mkTrainer (0 : ℕ) (0 : ℕ) 10 (.int 5) "logs") 3).1
    (by decide)

/-! ## Claim C4 -/

/-- C4: starting from a freshly constructed trainer, after any sequence
of `early_stopping` calls `best_val_loss` is the minimum of
`float('inf')` and all the validation losses observed so far; moreover a
single call leaves `best_val_loss` unchanged or makes it strictly
smaller, so it never increases. -/
theorem claim4_best_val_loss_min {M O : Type} (model : M) (opt : O)
    (num_epochs : ℕ) (patience : PyVal) (log_dir : String) (l : List ℚ) :
    ((SemanticSegmentationTrainer.mkTrainer model opt num_epochs patience
        log_dir).esRun l).best_val_loss = specMin l ∧
    (∀ (s : SemanticSegmentationTrainer M O) (v : ℚ),
      (s.early_stopping v).1.best_val_loss = s.best_val_loss ∨
      ((s.early_stopping v).1.best_val_loss).lt s.best_val_loss = true) := by
  constructor
  · rw [esRun_best]
    exact foldl_bestStep_inf l
  · intro s v
    rw [early_stopping_best, bestStep]
    split
    · right; assumption
    · left; rfl

/-! ## Claim C5 -/

/-- C5: every checkpoint record written by `save_checkpoint` consists of
exactly the five fields `epoch`, `model_state_dict`,
`optimizer_state_dict`, `train_loss`, `val_loss` (with the given
values), and it is written to the file
`checkpoint_epoch_<epoch>.pt` inside the trainer's log directory. -/
theorem claim5_checkpoint_record {M O : Type}
    (s : SemanticSegmentationTrainer M O) (epoch : ℕ) (model_state : M)
    (optimizer_state : O) (train_loss val_loss : ℚ) :
    s.save_checkpoint epoch model_state optimizer_state train_loss val_loss =
      TrainEvent.checkpointWrite
        (pathJoin s.log_dir ("checkpoint_epoch_" ++ toString epoch ++ ".pt"))
        { epoch := epoch, model_state_dict := model_state,
          optimizer_state_dict := optimizer_state,
          train_loss := train_loss, val_loss := val_loss } ∧
    (∀ c : Checkpoint M O,
      c = { epoch := c.epoch, model_state_dict := c.model_state_dict,
            optimizer_state_dict := c.optimizer_state_dict,
            train_loss := c.train_loss, val_loss := c.val_loss }) :=
  ⟨rfl, fun _ => rfl⟩

/-! ## Claim C7 -/

/-- C7 fails as stated: `SemanticSegmentationPipeline.run` calls
`wandb.init()` with no `project` argument at all — in particular not
with the repository's fixed project name `'semantic-segmentation'`,
which only the `__main__` block passes.  The only `wandb.init` call made
by `run` on the default pipeline carries no project. -/
theorem claim7_counterexample :
    WandbCall.start (some "semantic-segmentation") ∉
      defaultPipeline.runWandbCalls ∧
    (defaultPipeline.runWandbCalls.filterMap fun c =>
      match c with
      | .start pr => some pr
      | _ => none) = [none] := by
  constructor
  · decide
  · rfl

/-- C7 amended: `run` initializes the experiment-tracking run with NO
project name (the fixed project name `'semantic-segmentation'` is
supplied by the separate `wandb.init` call of the `__main__` block), and
then updates the run configuration with exactly the seven
hyperparameters `root`, `year`, `train_batch_size`, `val_batch_size`,
`num_epochs`, `seed`, `log_dir`, carrying the pipeline's configured
values. -/
theorem claim7_run_wandb (p : SemanticSegmentationPipeline) :
    p.runWandbCalls =
      [WandbCall.start none,
       WandbCall.configUpdate
         { root := p.root, year := p.year,
           train_batch_size := p.train_batch_size,
           val_batch_size := p.val_batch_size, num_epochs := p.num_epochs,
           seed := p.seed, log_dir := p.log_dir }] ∧
    mainWandbCalls.head? =
      some (WandbCall.start (some "semantic-segmentation")) ∧
    (∀ c : WandbConfig,
      c = { root := c.root, year := c.year,
            train_batch_size := c.train_batch_size,
            val_batch_size := c.val_batch_size, num_epochs := c.num_epochs,
            seed := c.seed, log_dir := c.log_dir }) :=
  ⟨rfl, rfl, fun _ => rfl⟩

/-! ## Claim C8 -/

/-- C8: with the pipeline's composed transform stored in the dataset,
every `__getitem__` access fails instead of returning a transformed
(image, mask) pair: the `Resize` size argument `(224, 224, 3)` is not a
functional size (it has three components), and the second invocation of
the stored transform passes two arguments `(img, mask)` to
`Compose.__call__`, which accepts only one. -/
theorem claim8_getitem_broken (raw : ℕ → Image × Image) (idx : ℕ) :
    SemanticSegmentationDataset.getitem
        { dataset := { raw := raw, transform := some pipelineTransform } } idx =
      Except.error "ValueError: size must be a sequence of 1 or 2 values" ∧
    validResizeSize [224, 224, 3] = false ∧
    (∀ img mask : Image,
      pipelineTransform.callWith [img, mask] =
        Except.error "TypeError: Compose takes a single positional argument") :=
  ⟨rfl, rfl, fun _ _ => rfl⟩

/-! ## Claim C9 -/

/-- C9: `SemanticSegmentationPipeline.run` passes `self.log_dir`
positionally into the `patience` parameter of the trainer constructor,
so the constructed trainer's `patience` is the string `'logs'` (the
pipeline's `log_dir` value) while its `log_dir` falls back to the
default `'logs'`; consequently the first `early_stopping` call of a
`train` run started by the pipeline raises a `TypeError` — comparing the
integer counter with a string — instead of returning a boolean, and the
run's trace is the epoch-0 log followed by the propagated exception. -/
theorem claim9_patience_string {M O : Type} (model : M) (opt : O) (v : ℚ)
    (losses : ℕ → ℚ × ℚ) :
    (∀ p : SemanticSegmentationPipeline,
      (p.runTrainer model opt).patience = PyVal.str p.log_dir ∧
      (p.runTrainer model opt).log_dir = "logs") ∧
    (defaultPipeline.runTrainer model opt).patience = PyVal.str "logs" ∧
    ((defaultPipeline.runTrainer model opt).early_stopping v).2 =
      Except.error "TypeError: unsupported comparison between int and str" ∧
    ((defaultPipeline.runTrainer model opt).train losses).1 =
      [TrainEvent.wandbLog
         { epoch := 0, train_loss := (losses 0).1, val_loss := (losses 0).2 },
       TrainEvent.raiseError
         "TypeError: unsupported comparison between int and str"] :=
  ⟨fun _ => ⟨rfl, rfl⟩, rfl, rfl, rfl⟩

/-! ## Claim C10 -/

/-- C10: with `patience = 0`, `early_stopping` returns `True` on every
call — even one whose validation loss strictly improves, since the reset
counter `0` already satisfies `counter >= patience` — so a `train` run
of a fresh trainer with `patience = 0` breaks at its first epoch
regardless of the losses observed. -/
theorem claim10_patience_zero {M O : Type}
    (s : SemanticSegmentationTrainer M O) (v : ℚ) (model : M) (opt : O)
    (n : ℕ) (dir : String) (losses : ℕ → ℚ × ℚ)
    (hp : s.patience = PyVal.int 0) (hc : 0 ≤ s.early_stopping_counter)
    (hn : 1 ≤ n) :
    (s.early_stopping v).2 = Except.ok true ∧
    breakEpochs ((SemanticSegmentationTrainer.mkTrainer model opt n
        (PyVal.int 0) dir).train losses).1 = [0] := by
  constructor
  · rw [early_stopping_snd, hp, early_stopping_fst]
    split
    · simp [pyGeIntVal]
    · simp only [pyGeIntVal, Except.ok.injEq, decide_eq_true_eq]
      omega
  · obtain ⟨m, rfl⟩ : ∃ m, n = m + 1 := ⟨n - 1, by omega⟩
    rfl

/-- Witness for C10 at a concrete trainer and loss sequence. -/
theorem claim10_patience_zero_witness :
    ((SemanticSegmentationTrainer.mkTrainer (0 : ℕ) (0 : ℕ) 5 (PyVal.int 0)
        "logs").early_stopping 2).2 = Except.ok true ∧
    breakEpochs ((SemanticSegmentationTrainer.mkTrainer (0 : ℕ) (0 : ℕ) 5
        (PyVal.int 0) "logs").train (fun _ => (1, 1))).1 = [0] :=
  claim10_patience_zero
    (SemanticSegmentationTrainer.mkTrainer (0 : ℕ) (0 : ℕ) 5 (PyVal.int 0)
      "logs") 2 (0 : ℕ) (0 : ℕ) 5 "logs" (fun _ => (1, 1)) rfl (by decide)
    (by decide)

/-! ## Claims C2, C3, C6: the epoch loop -/

lemma breakList_eq_single (x : LoopExit) (j : ℕ) :
    x.breakList = [j] ↔ x = LoopExit.stopped j := by
  cases x <;> simp [LoopExit.breakList]

/-- C2: for a fresh trainer with an integer patience `p`, the `train`
loop records its early-stopping break at epoch `j` exactly when `j` is
the first epoch whose `early_stopping` call brings the counter up to
`p`, and records no break exactly when no epoch in range does so (the
loop then exhausts `num_epochs`); moreover the counter equals the
number of consecutive epochs whose validation loss failed to improve,
and a break at epoch `j` means the loop ran exactly `j + 1` epochs. -/
theorem claim2_halt_at_patience {M O : Type} (model : M) (opt : O) (n : ℕ)
    (p : ℤ) (dir : String) (losses : ℕ → ℚ × ℚ) :
    (∀ j, breakEpochs ((SemanticSegmentationTrainer.mkTrainer model opt n
          (PyVal.int p) dir).train losses).1 = [j] ↔
      (j < n ∧ p ≤ (esAfter (valLosses losses) (j + 1)).1 ∧
        ∀ i, i < j → ¬ p ≤ (esAfter (valLosses losses) (i + 1)).1)) ∧
    (breakEpochs ((SemanticSegmentationTrainer.mkTrainer model opt n
          (PyVal.int p) dir).train losses).1 = [] ↔
      ∀ i, i < n → ¬ p ≤ (esAfter (valLosses losses) (i + 1)).1) ∧
    (∀ k, (esAfter (valLosses losses) k).1 = (streak (valLosses losses) k : ℤ)) ∧
    (∀ j, SemanticSegmentationTrainer.loopExit losses 0 n
          (SemanticSegmentationTrainer.mkTrainer model opt n (PyVal.int p) dir) =
        LoopExit.stopped j →
      SemanticSegmentationTrainer.entered losses 0 n
          (SemanticSegmentationTrainer.mkTrainer model opt n (PyVal.int p) dir) =
        j + 1) := by
  have hbr : breakEpochs ((SemanticSegmentationTrainer.mkTrainer model opt n
        (PyVal.int p) dir : SemanticSegmentationTrainer M O).train losses).1 =
      (SemanticSegmentationTrainer.loopExit losses 0 n
        (SemanticSegmentationTrainer.mkTrainer model opt n (PyVal.int p) dir)).breakList :=
    breaks_trainFrom losses n 0 _
  obtain ⟨hraise, hstop, hfin⟩ :=
    loopExit_int losses p n 0
      (SemanticSegmentationTrainer.mkTrainer model opt n (PyVal.int p) dir :
        SemanticSegmentationTrainer M O) rfl rfl rfl
  refine ⟨fun j => ?_, ?_, esAfter_fst_streak (valLosses losses), fun j h => ?_⟩
  · rw [hbr, breakList_eq_single, hstop j]
    constructor
    · rintro ⟨-, h2, h3, h4⟩
      exact ⟨by omega, h3, fun i hi => h4 i (Nat.zero_le i) hi⟩
    · rintro ⟨h2, h3, h4⟩
      exact ⟨Nat.zero_le j, by omega, h3, fun i _ hi => h4 i hi⟩
  · rw [hbr]
    constructor
    · intro h0
      cases hx : SemanticSegmentationTrainer.loopExit losses 0 n
          (SemanticSegmentationTrainer.mkTrainer model opt n (PyVal.int p) dir :
            SemanticSegmentationTrainer M O) with
      | finished =>
        intro i hi
        exact (hfin.mp hx) i (Nat.zero_le i) (by omega)
      | stopped j =>
        rw [hx] at h0
        simp [LoopExit.breakList] at h0
      | raised j m =>
        exact absurd hx (hraise j m)
    · intro hall
      have hx : SemanticSegmentationTrainer.loopExit losses 0 n
          (SemanticSegmentationTrainer.mkTrainer model opt n (PyVal.int p) dir :
            SemanticSegmentationTrainer M O) = LoopExit.finished :=
        hfin.mpr (fun i _ hi => hall i (by omega))
      rw [hx]
      rfl
  · obtain ⟨-, hs, -⟩ := exit_counts losses n 0
      (SemanticSegmentationTrainer.mkTrainer model opt n (PyVal.int p) dir :
        SemanticSegmentationTrainer M O)
    obtain ⟨h1, h2⟩ := hs j h
    omega

/-- Witness for C2: with patience 1 and constant losses the break is
recorded at epoch 1 (the first non-improving epoch). -/
theorem claim2_halt_at_patience_witness :
    breakEpochs ((SemanticSegmentationTrainer.mkTrainer (0 : ℕ) (0 : ℕ) 3
        (PyVal.int 1) "logs").train (fun _ => (1, 1))).1 = [1] :=
  ((claim2_halt_at_patience (0 : ℕ) (0 : ℕ) 3 1 "logs" (fun _ => (1, 1))).1 1).mpr
    (by decide)

/-- C3: in any `train` run, the epochs of the written checkpoint files
are exactly `0, 1, …, c-1` where `c` is the number of completed
iterations — one checkpoint per completed epoch; if early stopping
triggers at epoch `j` then `c = j` and no checkpoint is written for
epoch `j`; if the loop finishes without stopping, every entered epoch
gets its checkpoint; and the checkpoint epoch indices are strictly
increasing. -/
theorem claim3_checkpoints {M O : Type} (losses : ℕ → ℚ × ℚ)
    (s : SemanticSegmentationTrainer M O) :
    (ckptWrites (s.train losses).1).map (fun pr => pr.2.epoch) =
      List.range (SemanticSegmentationTrainer.completedCount losses 0 s.num_epochs s) ∧
    (∀ j, SemanticSegmentationTrainer.loopExit losses 0 s.num_epochs s =
        LoopExit.stopped j →
      SemanticSegmentationTrainer.completedCount losses 0 s.num_epochs s = j ∧
      j ∉ (ckptWrites (s.train losses).1).map (fun pr => pr.2.epoch)) ∧
    (SemanticSegmentationTrainer.loopExit losses 0 s.num_epochs s = LoopExit.finished →
      SemanticSegmentationTrainer.completedCount losses 0 s.num_epochs s =
        SemanticSegmentationTrainer.entered losses 0 s.num_epochs s) ∧
    List.Chain' (fun a b => a < b)
      ((ckptWrites (s.train losses).1).map (fun pr => pr.2.epoch)) := by
  have hmap : (ckptWrites (s.train losses).1).map (fun pr => pr.2.epoch) =
      List.range (SemanticSegmentationTrainer.completedCount losses 0 s.num_epochs s) := by
    have h := ckpt_trainFrom losses s.num_epochs 0 s
    rw [SemanticSegmentationTrainer.train, h]
    rw [List.map_map, List.range_eq_range']
    show List.map (fun i => i) _ = _
    simp
  obtain ⟨hf, hs, -⟩ := exit_counts losses s.num_epochs 0 s
  refine ⟨hmap, fun j h => ?_, fun h => ?_, ?_⟩
  · obtain ⟨h1, h2⟩ := hs j h
    refine ⟨by omega, ?_⟩
    rw [hmap]
    simp only [List.mem_range]
    omega
  · obtain ⟨h1, h2⟩ := hf h
    omega
  · rw [hmap]
    exact (List.pairwise_lt_range _).chain'

/-- Witness for C3: with patience 1 and constant losses the run stops at
epoch 1 having completed exactly epoch 0, whose checkpoint is the only
one written. -/
theorem claim3_checkpoints_witness :
    SemanticSegmentationTrainer.loopExit (fun _ => (1, 1)) 0
        (SemanticSegmentationTrainer.mkTrainer (0 : ℕ) (0 : ℕ) 3 (PyVal.int 1)
          "logs").num_epochs
        (SemanticSegmentationTrainer.mkTrainer (0 : ℕ) (0 : ℕ) 3 (PyVal.int 1)
          "logs") = LoopExit.stopped 1 ∧
    SemanticSegmentationTrainer.completedCount (fun _ => (1, 1)) 0
        (SemanticSegmentationTrainer.mkTrainer (0 : ℕ) (0 : ℕ) 3 (PyVal.int 1)
          "logs").num_epochs
        (SemanticSegmentationTrainer.mkTrainer (0 : ℕ) (0 : ℕ) 3 (PyVal.int 1)
          "logs") = 1 ∧
    1 ∉ (ckptWrites ((SemanticSegmentationTrainer.mkTrainer (0 : ℕ) (0 : ℕ) 3
        (PyVal.int 1) "logs").train (fun _ => (1, 1))).1).map
        (fun pr => pr.2.epoch) :=
  ⟨by decide, by decide,
    ((claim3_checkpoints (fun _ => (1, 1))
        (SemanticSegmentationTrainer.mkTrainer (0 : ℕ) (0 : ℕ) 3 (PyVal.int 1)
          "logs")).2.1 1 (by decide)).2⟩

/-- C6: every entered epoch of the loop — including the epoch at which
early stopping triggers — produces exactly one `wandb.log` call whose
dictionary has exactly the keys `epoch`, `train_loss`, `val_loss`,
carrying that epoch's index and its average training and validation
losses. -/
theorem claim6_wandb_per_epoch {M O : Type} (losses : ℕ → ℚ × ℚ)
    (s : SemanticSegmentationTrainer M O) :
    wandbEntries (s.train losses).1 =
      (List.range (SemanticSegmentationTrainer.entered losses 0 s.num_epochs s)).map
        (fun i =>
          { epoch := i, train_loss := (losses i).1, val_loss := (losses i).2 }) ∧
    (∀ j, SemanticSegmentationTrainer.loopExit losses 0 s.num_epochs s =
        LoopExit.stopped j →
      j < SemanticSegmentationTrainer.entered losses 0 s.num_epochs s) ∧
    (∀ w : WandbEntry,
      w = { epoch := w.epoch, train_loss := w.train_loss,
            val_loss := w.val_loss }) := by
  refine ⟨?_, fun j h => ?_, fun _ => rfl⟩
  · have h := wandb_trainFrom losses s.num_epochs 0 s
    rw [SemanticSegmentationTrainer.train, h, List.range_eq_range']
  · obtain ⟨-, hs, -⟩ := exit_counts losses s.num_epochs 0 s
    obtain ⟨h1, h2⟩ := hs j h
    omega

/-- Witness for C6: in the patience-1 run stopping at epoch 1, the break
epoch 1 is among the two logged epochs. -/
theorem claim6_wandb_per_epoch_witness :
    SemanticSegmentationTrainer.loopExit (fun _ => (2, 2)) 0
        (SemanticSegmentationTrainer.mkTrainer (0 : ℕ) (0 : ℕ) 4 (PyVal.int 1)
          "logs").num_epochs
        (SemanticSegmentationTrainer.mkTrainer (0 : ℕ) (0 : ℕ) 4 (PyVal.int 1)
          "logs") = LoopExit.stopped 1 ∧
    1 < SemanticSegmentationTrainer.entered (fun _ => (2, 2)) 0
        (SemanticSegmentationTrainer.mkTrainer (0 : ℕ) (0 : ℕ) 4 (PyVal.int 1)
          "logs").num_epochs
        (SemanticSegmentationTrainer.mkTrainer (0 : ℕ) (0 : ℕ) 4 (PyVal.int 1)
          "logs") :=
  ⟨by decide,
    (claim6_wandb_per_epoch (fun _ => (2, 2))
        (SemanticSegmentationTrainer.mkTrainer (0 : ℕ) (0 : ℕ) 4 (PyVal.int 1)
          "logs")).2.1 1 (by decide)⟩
